import Mathlib

/-!
# Verification of the economic-dashboard backend

Shallow embedding of the Python backend (`app/main.py`, `app/crypto_client.py`,
`app/worldbank_client.py`) of the fastapi-economic-dashboard repository, together
with proofs about the behaviour of the embedded operations.

Modelling conventions:
* wall-clock time (`time.time()` / `datetime.now()`) is modelled as `ℚ` seconds
  on a single idealised timeline (`time.sleep d` advances the clock by exactly `d`);
* numeric values that the Python code handles as floats are modelled as exact
  rationals `ℚ`;
* a Python dict used as a cache is modelled as an association list whose
  assignment operation removes any previous binding of the assigned key;
* raised exceptions are modelled with explicit outcome types (`Except` / custom
  inductives); an HTTP handler body that raises is a value of `Except PyExn`.
-/

namespace EconDash

/-! ## Cache keys (`_get_cache_key` in both providers)

Python builds the key as `f"{endpoint}:{':'.join(f'{k}={v}' for k, v in sorted(params.items()))}"`.
`sorted` on `(key, value)` tuples compares lexicographically: first the key
strings (by code point), then — only for equal keys, which cannot happen for a
dict — the values.  Parameter values are modelled by their formatted string
`f"{v}"`.  The code-point comparison of Python strings is embedded as a
lexicographic Boolean comparison on `String.data`. -/

/-- Lexicographic (code-point) ordering on character lists, as Python compares
strings. -/
def lexLe : List Char → List Char → Bool
  | [], _ => true
  | _ :: _, [] => false
  | a :: as, b :: bs =>
    if a < b then true
    else if b < a then false
    else lexLe as bs

/-- Python's `<=` on strings. -/
def strLe (a b : String) : Bool :=
  lexLe a.data b.data

/-- Python's tuple comparison `(k1, v1) <= (k2, v2)` on pairs of strings. -/
def pairLe (p q : String × String) : Prop :=
  (if p.1 == q.1 then strLe p.2 q.2 else strLe p.1 q.1) = true

instance : DecidableRel pairLe := fun _ _ => by
  unfold pairLe; infer_instance

/-- `sorted(params.items())`: Python's sort is a canonical reordering; we embed
it with insertion sort by `pairLe`. -/
def sortedItems (params : List (String × String)) : List (String × String) :=
  List.insertionSort pairLe params

/-- `_get_cache_key(endpoint, params)` of `CryptoDataProvider` and
`WorldBankDataProvider` (identical code in both classes). -/
def getCacheKey (endpoint : String) (params : List (String × String)) : String :=
  endpoint ++ ":" ++ String.intercalate ":" ((sortedItems params).map fun p => p.1 ++ "=" ++ p.2)

/-! ## The per-provider TTL cache and rate limiter -/

/-- The constants set in each provider's `__init__`: `_cache_ttl` and
`_min_request_interval`, in seconds. -/
structure ProviderConfig where
  cacheTtl : ℚ
  minRequestInterval : ℚ

/-- `CryptoDataProvider.__init__`: `_cache_ttl = 600`, `_min_request_interval = 5`. -/
def cryptoConfig : ProviderConfig := ⟨600, 5⟩

/-- `WorldBankDataProvider.__init__`: `_cache_ttl = 1800`, `_min_request_interval = 10`. -/
def worldBankConfig : ProviderConfig := ⟨1800, 10⟩

/-- `self._cache`: dict from cache key to `(timestamp, data)`. -/
abbrev CacheMap (α : Type) := List (String × ℚ × α)

/-- The mutable state of one provider instance: `self._cache` and
`self._last_request_time`. -/
structure ProviderState (α : Type) where
  cache : CacheMap α
  lastRequestTime : ℚ

/-- Fresh provider (`__init__`): empty cache, `_last_request_time = 0`. -/
def freshProvider (α : Type) : ProviderState α := ⟨[], 0⟩

/-- Dict lookup `self._cache[cache_key]` (as an `Option`). -/
def cacheLookup (c : CacheMap α) (k : String) : Option (ℚ × α) :=
  c.lookup k

/-- `_is_cache_valid`: the key is present and
`datetime.now() - cached_time < timedelta(seconds=self._cache_ttl)`. -/
def isCacheValid (cfg : ProviderConfig) (now : ℚ) (c : CacheMap α) (k : String) : Bool :=
  match cacheLookup c k with
  | none => false
  | some (t, _) => decide (now - t < cfg.cacheTtl)

/-- `_get_from_cache`: the stored data when `_is_cache_valid`, else `None`. -/
def getFromCache (cfg : ProviderConfig) (now : ℚ) (c : CacheMap α) (k : String) : Option α :=
  if isCacheValid cfg now c k then
    match cacheLookup c k with
    | none => none
    | some (_, d) => some d
  else none

/-- `_save_to_cache`: dict assignment `self._cache[cache_key] = (datetime.now(), data)`.
Assignment to a dict key replaces any previous binding of that key. -/
def saveToCache (c : CacheMap α) (k : String) (now : ℚ) (d : α) : CacheMap α :=
  (k, now, d) :: c.filter fun e => !(e.1 == k)

/-- `clear_cache` (`WorldBankDataProvider` only): `self._cache.clear()`. -/
def clearCache (_c : CacheMap α) : CacheMap α := []

/-- The sleep performed by `_rate_limit_delay` when called at time `now` with
`_last_request_time = lastReq`: `min_interval - (now - lastReq)` if that
elapsed time is below the minimum, else no sleep. -/
def rateLimitDelay (cfg : ProviderConfig) (lastReq now : ℚ) : ℚ :=
  if now - lastReq < cfg.minRequestInterval then cfg.minRequestInterval - (now - lastReq)
  else 0

/-! ## Fetch operations

An upstream HTTP exchange is modelled by its observable result: either the API
is unavailable (timeout, connection error, HTTP error status including 429 —
everything `requests` raises or `raise_for_status` turns into an exception), or
it answers with a decoded JSON payload. -/

/-- Result of one upstream HTTP exchange. -/
inductive Upstream (α : Type) where
  | unavailable (msg : String)
  | payload (v : α)

/-- What a crypto fetch operation does for its caller: returns data or raises. -/
inductive CryptoOutcome (α : Type) where
  | ok (v : α)
  | raised (msg : String)
deriving DecidableEq

/-- Observable events of one fetch call: whether an upstream HTTP request was
made, and how long the rate limiter slept. -/
structure FetchTrace where
  requestMade : Bool
  sleptFor : ℚ

/-- Common body of `CryptoDataProvider.get_market_data`, `get_coin_history` and
`get_global`: check the cache; on a miss apply `_rate_limit_delay`, perform the
HTTP request, validate the payload (`get_market_data` checks
`isinstance(data, list)`; the other two accept any payload, `validate := fun _ => true`),
cache and return it; any failure raises.  `now` is the clock at entry; the
request is initiated at `now + rateLimitDelay`, which `_rate_limit_delay`
stores into `_last_request_time`. -/
def cryptoFetch (validate : α → Bool) (st : ProviderState α) (now : ℚ) (key : String)
    (upstream : Upstream α) : CryptoOutcome α × ProviderState α × FetchTrace :=
  match getFromCache cryptoConfig now st.cache key with
  | some d => (.ok d, st, ⟨false, 0⟩)
  | none =>
    let slept := rateLimitDelay cryptoConfig st.lastRequestTime now
    let reqTime := now + slept
    match upstream with
    | .unavailable msg => (.raised msg, { st with lastRequestTime := reqTime }, ⟨true, slept⟩)
    | .payload v =>
      if validate v then
        (.ok v, ⟨saveToCache st.cache key reqTime v, reqTime⟩, ⟨true, slept⟩)
      else
        (.raised "Invalid response format from CoinGecko API",
          { st with lastRequestTime := reqTime }, ⟨true, slept⟩)

/-- `WorldBankDataProvider.get_economic_indicators`.  The upstream exchange is
the per-indicator request loop; `rows` is the list of records accumulated in
`all_data` (an unavailable API, per-indicator exceptions — each swallowed by
`continue` — or empty payloads all leave `all_data` empty).  When `all_data`
is empty the code raises internally, catches that via `except api_error`, and
substitutes an empty DataFrame, which is then cached and returned like a
normal result; otherwise the records are pivoted into a DataFrame
(`pivot : List ρ → List σ` abstracts `pivot_table` plus column renaming).
The function never raises towards its caller. -/
def wbGetEconomicIndicators (pivot : List ρ → List σ) (st : ProviderState (List σ))
    (now : ℚ) (key : String) (rows : List ρ) :
    List σ × ProviderState (List σ) × FetchTrace :=
  match getFromCache worldBankConfig now st.cache key with
  | some d => (d, st, ⟨false, 0⟩)
  | none =>
    let slept := rateLimitDelay worldBankConfig st.lastRequestTime now
    let reqTime := now + slept
    let df : List σ := if rows.isEmpty then [] else pivot rows
    (df, ⟨saveToCache st.cache key reqTime df, reqTime⟩, ⟨true, slept⟩)

/-! ## Sequences of requests (for the rate-limit claim)

The timing behaviour of a sequence of fetch calls on one provider instance is
abstracted by the calls' entry clocks together with whether each call missed
the cache (only misses reach `_rate_limit_delay`).  `reqTimes` lists the
initiation times of the upstream requests; `chrono` states that each call
enters no earlier than the provider finished its previous request (Python calls
are sequential: a call starts only after the previous one — including its
sleep — returned). -/

/-- Initiation times of the upstream requests of a call sequence.
Each event is `(missedCache, entryClock)`. -/
def reqTimes (cfg : ProviderConfig) : ℚ → List (Bool × ℚ) → List ℚ
  | _, [] => []
  | last, (false, _) :: es => reqTimes cfg last es
  | last, (true, now) :: es =>
    let t := now + rateLimitDelay cfg last now
    t :: reqTimes cfg t es

/-- The call sequence is chronological: every cache-missing call enters at or
after the time recorded for the previous upstream request. -/
def chrono (cfg : ProviderConfig) : ℚ → List (Bool × ℚ) → Prop
  | _, [] => True
  | last, (false, _) :: es => chrono cfg last es
  | last, (true, now) :: es =>
    last ≤ now ∧ chrono cfg (now + rateLimitDelay cfg last now) es

/-- All listed times keep at least gap `m` from their predecessor (and the
first keeps gap `m` from `prev`). -/
def gapped (m : ℚ) : ℚ → List ℚ → Prop
  | _, [] => True
  | prev, t :: ts => prev + m ≤ t ∧ gapped m t ts

/-! ## GET /api/sales (`get_sales` in `app/main.py`)

A sales row is reduced to the three columns the filters touch; dates are
modelled as integers (days), matching the total order of `pd.Timestamp`. -/

/-- One record of the in-memory `sales` table. -/
structure SalesRecord where
  date : ℤ
  category : String
  region : String
deriving DecidableEq

/-- `df.head(limit)` of pandas: the first `limit` rows for `limit ≥ 0`, and all
rows except the last `-limit` rows for negative `limit` (pandas documents
`head(-n)` as `df[:-n]`). -/
def pandasHead (limit : ℤ) (l : List α) : List α :=
  if 0 ≤ limit then l.take limit.toNat
  else l.take (l.length - (-limit).toNat)

/-- The four filter steps of `get_sales` in order: `date >= start_dt`,
`date <= end_dt`, `category == category`, `region == region`; each applied only
when the query parameter was supplied. -/
def filterSales (rows : List SalesRecord) (startDate endDate : Option ℤ)
    (category region : Option String) : List SalesRecord :=
  let r1 := match startDate with
    | some s => rows.filter fun x => decide (s ≤ x.date)
    | none => rows
  let r2 := match endDate with
    | some e => r1.filter fun x => decide (x.date ≤ e)
    | none => r1
  let r3 := match category with
    | some c => r2.filter fun x => x.category == c
    | none => r2
  let r4 := match region with
    | some g => r3.filter fun x => x.region == g
    | none => r3
  r4

/-- `get_sales`: filter, then `sales_df.head(limit)`; `limit` defaults to 1000
and is an unconstrained `int` query parameter. -/
def getSales (rows : List SalesRecord) (startDate endDate : Option ℤ)
    (category region : Option String) (limit : ℤ := 1000) : List SalesRecord :=
  pandasHead limit (filterSales rows startDate endDate category region)

/-- A record satisfies every supplied filter of the request. -/
def satisfiesFilters (x : SalesRecord) (startDate endDate : Option ℤ)
    (category region : Option String) : Prop :=
  (∀ s, startDate = some s → s ≤ x.date) ∧
  (∀ e, endDate = some e → x.date ≤ e) ∧
  (∀ c, category = some c → x.category = c) ∧
  (∀ g, region = some g → x.region = g)

/-! ## Route handlers with a generic `except Exception` clause (claim about
`get_file_content`, `get_file_stats`, `get_country_comparison`)

`fastapi.HTTPException` subclasses `Exception`, so an `HTTPException` raised
inside the handler's `try` block is caught by the handler's own
`except Exception` clause, which raises a fresh `HTTPException(500, ...)`. -/

/-- An exception a handler body can raise: an `HTTPException` with a status
code, or any other exception. -/
inductive PyExn where
  | http (status : ℕ) (detail : String)
  | other (msg : String)
deriving DecidableEq

/-- The HTTP status the framework sends for a handler: 200 on a normal return;
if the body raised anything, the `except Exception` clause raises
`HTTPException(status_code=500, ...)`, so the response status is 500. -/
def handlerStatus (body : Except PyExn α) : ℕ :=
  match body with
  | .ok _ => 200
  | .error _ => 500

/-- Python's `str.endswith`: suffix test on the character sequence. -/
def strEndsWith (s suffix : String) : Bool :=
  suffix.data.isSuffixOf s.data

/-- `try` block of `get_file_content` (and, identically guarded,
`get_file_stats`): raise `HTTPException(404)` when the file does not exist
under `data/` or the name does not end in `.csv`; otherwise read the CSV
(`readCsv` models `pd.read_csv` plus the rest of the body, which may itself
raise). -/
def fileEndpointBody (existing : List String) (readCsv : String → Except PyExn α)
    (filename : String) : Except PyExn α :=
  if !(existing.contains filename) || !(strEndsWith filename ".csv") then
    .error (.http 404 "Файл не знайдено")
  else readCsv filename

/-- Response status of `GET /api/files/{filename}`. -/
def getFileContentStatus (existing : List String) (readCsv : String → Except PyExn α)
    (filename : String) : ℕ :=
  handlerStatus (fileEndpointBody existing readCsv filename)

/-- Response status of `GET /api/files/{filename}/stats` (same guard, same
wrapping; only the successful branch computes different data). -/
def getFileStatsStatus (existing : List String) (computeStats : String → Except PyExn α)
    (filename : String) : ℕ :=
  handlerStatus (fileEndpointBody existing computeStats filename)

/-- Friendly indicator names accepted by `WorldBankDataProvider`
(`self.indicators` keys, in `__init__` order). -/
def wbIndicatorNames : List String :=
  ["GDP", "GDP_PER_CAPITA", "INFLATION", "UNEMPLOYMENT", "EXPORTS", "IMPORTS",
   "POPULATION", "LIFE_EXPECTANCY", "INTERNET_USERS", "EDUCATION_EXPENDITURE"]

/-- `try` block of `get_country_comparison`: raise `HTTPException(400)` when
the indicator is not a key of `provider.indicators`; otherwise run the fetch
(which may itself raise). -/
def comparisonBody (indicator : String) (fetch : Except PyExn α) : Except PyExn α :=
  if !(wbIndicatorNames.contains indicator) then
    .error (.http 400 ("Невідомий індикатор: " ++ indicator))
  else fetch

/-- Response status of `GET /api/worldbank/comparison`. -/
def getComparisonStatus (indicator : String) (fetch : Except PyExn α) : ℕ :=
  handlerStatus (comparisonBody indicator fetch)

/-! ## `load_data` (`app/main.py`) -/

/-- The five tables of the demo data set (table contents abstracted to `τ`). -/
structure DemoData (τ : Type) where
  sales : τ
  inventory : τ
  profit : τ
  trends : τ
  stats : τ
deriving DecidableEq

/-- State of the `data/` directory for the five required CSV files:
`none` = file missing, `some r` = file present, reading it yields `r`
(`pd.read_csv` may raise). -/
structure DataDir (τ : Type) where
  sales : Option (Except String τ)
  inventory : Option (Except String τ)
  profit : Option (Except String τ)
  trends : Option (Except String τ)
  stats : Option (Except String τ)

/-- `all(os.path.exists(...) for file in required_files)`. -/
def allFilesExist (d : DataDir τ) : Bool :=
  d.sales.isSome && d.inventory.isSome && d.profit.isSome && d.trends.isSome && d.stats.isSome

/-- Reading one file inside the `try` of `load_data` (only reached when the
existence check passed; a missing file would make `pd.read_csv` raise). -/
def readFile : Option (Except String τ) → Except String τ
  | none => .error "FileNotFoundError"
  | some r => r

/-- The dict construction inside the `try` of `load_data`: five `pd.read_csv`
calls; the first exception aborts the construction. -/
def readAll (d : DataDir τ) : Except String (DemoData τ) := do
  let s ← readFile d.sales
  let i ← readFile d.inventory
  let p ← readFile d.profit
  let t ← readFile d.trends
  let st ← readFile d.stats
  return ⟨s, i, p, t, st⟩

/-- `load_data`: takes the module-level `cached_data` and the directory state;
returns the data handed to the endpoint and the new `cached_data`.  The first
statement is `cached_data = None` (a hard reset kept in the code "temporarily
for testing"), after which the `if cached_data is not None` early return is
dead; `gen` is the result of `DataGenerator().generate_all_data()`. -/
def loadData (gen : DemoData τ) (_cachedData : Option (DemoData τ)) (dir : DataDir τ) :
    DemoData τ × Option (DemoData τ) :=
  let reset : Option (DemoData τ) := none
  match reset with
  | some d => (d, some d)
  | none =>
    if allFilesExist dir then
      match readAll dir with
      | .ok d => (d, some d)
      | .error _ => (gen, some gen)
    else (gen, some gen)

/-! ## Trend analysis (`get_trend_analysis` in `worldbank_client.py`)

For one indicator column with values `ys` (after `dropna()`), the code runs
`np.polyfit(np.arange(len(ys)), ys, 1)` — a degree-1 least-squares fit — and
takes the slope; in exact arithmetic that slope is the normal-equations value
`(n·Σxy − Σx·Σy) / (n·Σx² − (Σx)²)` with `x = 0, …, n−1`. -/

/-- `np.arange(len(values))` as rationals. -/
def xIndices (n : ℕ) : List ℚ :=
  (List.range n).map fun i : ℕ => (i : ℚ)

/-- Σx over a list of sample points. -/
def sX (ps : List (ℚ × ℚ)) : ℚ := (ps.map Prod.fst).sum

/-- Σy over a list of sample points. -/
def sY (ps : List (ℚ × ℚ)) : ℚ := (ps.map Prod.snd).sum

/-- Σx² over a list of sample points. -/
def sXX (ps : List (ℚ × ℚ)) : ℚ := (ps.map fun p => p.1 * p.1).sum

/-- Σxy over a list of sample points. -/
def sXY (ps : List (ℚ × ℚ)) : ℚ := (ps.map fun p => p.1 * p.2).sum

/-- Σy² over a list of sample points. -/
def sYY (ps : List (ℚ × ℚ)) : ℚ := (ps.map fun p => p.2 * p.2).sum

/-- Sum of squared residuals of the line `y = m·x + b` on the sample points. -/
def sqErr (ps : List (ℚ × ℚ)) (m b : ℚ) : ℚ :=
  (ps.map fun p => (p.2 - (m * p.1 + b)) ^ 2).sum

/-- The sample points `(i, ys[i])` the code regresses over. -/
def samplePoints (ys : List ℚ) : List (ℚ × ℚ) :=
  (xIndices ys.length).zip ys

/-- The slope `np.polyfit(x, y, 1)[0]` computes (exact arithmetic). -/
def polyfitSlope (ys : List ℚ) : ℚ :=
  let n : ℚ := ys.length
  let ps := samplePoints ys
  (n * sXY ps - sX ps * sY ps) / (n * sXX ps - sX ps * sX ps)

/-- The intercept `np.polyfit(x, y, 1)[1]` computes (exact arithmetic). -/
def polyfitIntercept (ys : List ℚ) : ℚ :=
  let ps := samplePoints ys
  (sY ps - polyfitSlope ys * sX ps) / (ys.length : ℚ)

/-- `'зростання' if trend_slope > 0 else 'спад'`. -/
def trendDirection (slope : ℚ) : String :=
  if slope > 0 then "зростання" else "спад"

/-! ## Economic health scoring (`analyze_economic_health`) -/

/-- The latest-year row of one country, restricted to the four indicators the
scoring reads; `none` models a missing column or a null (`pd.notna` fails). -/
structure CountryRow where
  gdpPerCapita : Option ℚ
  inflation : Option ℚ
  unemployment : Option ℚ
  lifeExpectancy : Option ℚ

/-- GDP-per-capita component score (thresholds 50000/25000/10000/5000). -/
def gdpScore (v : ℚ) : ℚ :=
  if v > 50000 then 100
  else if v > 25000 then 80
  else if v > 10000 then 60
  else if v > 5000 then 40
  else 20

/-- Inflation component score (thresholds 2/5/10/20). -/
def inflationScore (v : ℚ) : ℚ :=
  if v < 2 then 100
  else if v < 5 then 80
  else if v < 10 then 60
  else if v < 20 then 40
  else 20

/-- Unemployment component score (thresholds 3/5/8/15). -/
def unemploymentScore (v : ℚ) : ℚ :=
  if v < 3 then 100
  else if v < 5 then 80
  else if v < 8 then 60
  else if v < 15 then 40
  else 20

/-- Life-expectancy component score (thresholds 80/75/70/65). -/
def lifeScore (v : ℚ) : ℚ :=
  if v > 80 then 100
  else if v > 75 then 80
  else if v > 70 then 60
  else if v > 65 then 40
  else 20

/-- Contribution of the GDP-per-capita block: `health_score += gdp_score * 0.3`
when the indicator is present, nothing otherwise. -/
def gdpTerm (o : Option ℚ) : ℚ :=
  match o with
  | some v => gdpScore v * (3 / 10)
  | none => 0

/-- Contribution of the inflation block (`* 0.25`). -/
def inflationTerm (o : Option ℚ) : ℚ :=
  match o with
  | some v => inflationScore v * (1 / 4)
  | none => 0

/-- Contribution of the unemployment block (`* 0.25`). -/
def unemploymentTerm (o : Option ℚ) : ℚ :=
  match o with
  | some v => unemploymentScore v * (1 / 4)
  | none => 0

/-- Contribution of the life-expectancy block (`* 0.2`). -/
def lifeTerm (o : Option ℚ) : ℚ :=
  match o with
  | some v => lifeScore v * (1 / 5)
  | none => 0

/-- `health_score` accumulation: each present component adds
`score * weight` with weights 0.3, 0.25, 0.25, 0.2; an absent component adds
nothing. -/
def healthScore (r : CountryRow) : ℚ :=
  gdpTerm r.gdpPerCapita + inflationTerm r.inflation +
    unemploymentTerm r.unemployment + lifeTerm r.lifeExpectancy

/-- `health_level` thresholds applied to the (unrounded) accumulated score. -/
def healthLevel (s : ℚ) : String :=
  if s ≥ 80 then "Excellent"
  else if s ≥ 60 then "Good"
  else if s ≥ 40 then "Medium"
  else if s ≥ 20 then "Poor"
  else "Critical"

/-- Python's `round(x, 1)` on our exact values: round `10·x` to an integer and
divide by 10 (for the scores proved below, `10·x` is an integer, so no
tie-breaking rule is exercised). -/
def roundTo1 (x : ℚ) : ℚ :=
  ((round (10 * x) : ℤ) : ℚ) / 10

/-- The `health_score` value written into the response dict:
`round(float(health_score), 1)`. -/
def reportedHealthScore (r : CountryRow) : ℚ :=
  roundTo1 (healthScore r)

/-! ## Theorems -/

/-! ### Order facts for the cache-key serialisation -/

theorem lexLe_total (as : List Char) : ∀ bs, lexLe as bs = true ∨ lexLe bs as = true := by
  induction as with
  | nil => intro bs; left; rfl
  | cons a as ih =>
    intro bs
    cases bs with
    | nil => right; rfl
    | cons b bs =>
      simp only [lexLe]
      by_cases hab : a < b
      · left; simp [hab]
      · by_cases hba : b < a
        · right; simp [hba]
        · have h : a = b := le_antisymm (not_lt.mp hba) (not_lt.mp hab)
          subst h
          simpa [lt_irrefl] using ih bs

theorem lexLe_trans (as : List Char) :
    ∀ bs cs, lexLe as bs = true → lexLe bs cs = true → lexLe as cs = true := by
  induction as with
  | nil => intro bs cs _ _; rfl
  | cons a as ih =>
    intro bs cs h1 h2
    cases bs with
    | nil => simp [lexLe] at h1
    | cons b bs =>
      cases cs with
      | nil => simp [lexLe] at h2
      | cons c cs =>
        simp only [lexLe] at h1 h2 ⊢
        by_cases hab : a < b
        · by_cases hbc : b < c
          · simp [lt_trans hab hbc]
          · by_cases hcb : c < b
            · simp [hbc, hcb] at h2
            · have h : b = c := le_antisymm (not_lt.mp hcb) (not_lt.mp hbc)
              subst h
              simp [hab]
        · by_cases hba : b < a
          · simp [hab, hba] at h1
          · have h : a = b := le_antisymm (not_lt.mp hba) (not_lt.mp hab)
            subst h
            simp only [lt_irrefl, if_false] at h1 ⊢
            by_cases hac : a < c
            · simp [hac]
            · by_cases hca : c < a
              · simp [hac, hca] at h2
              · simp only [hac, hca, if_false] at h2 ⊢
                exact ih bs cs h1 h2

theorem lexLe_antisymm (as : List Char) :
    ∀ bs, lexLe as bs = true → lexLe bs as = true → as = bs := by
  induction as with
  | nil =>
    intro bs _ h2
    cases bs with
    | nil => rfl
    | cons b bs => simp [lexLe] at h2
  | cons a as ih =>
    intro bs h1 h2
    cases bs with
    | nil => simp [lexLe] at h1
    | cons b bs =>
      simp only [lexLe] at h1 h2
      by_cases hab : a < b
      · simp [hab, lt_asymm hab] at h2
      · by_cases hba : b < a
        · simp [hab, hba] at h1
        · have h : a = b := le_antisymm (not_lt.mp hba) (not_lt.mp hab)
          subst h
          simp only [lt_irrefl, if_false] at h1 h2
          rw [ih bs h1 h2]

theorem strLe_antisymm (a b : String) (h1 : strLe a b = true) (h2 : strLe b a = true) :
    a = b := by
  have h := lexLe_antisymm a.data b.data h1 h2
  cases a; cases b; exact congrArg String.mk h

instance : IsTotal (String × String) pairLe := by
  constructor
  intro p q
  unfold pairLe
  by_cases h : p.1 = q.1
  · simp only [beq_iff_eq, h, if_true]
    exact lexLe_total _ _
  · simp only [beq_iff_eq, h, (Ne.symm h : ¬ q.1 = p.1), if_false]
    exact lexLe_total _ _

instance : IsTrans (String × String) pairLe := by
  constructor
  intro p q r h1 h2
  unfold pairLe at h1 h2 ⊢
  by_cases hpq : p.1 = q.1
  · by_cases hqr : q.1 = r.1
    · rw [if_pos (beq_iff_eq.mpr hpq)] at h1
      rw [if_pos (beq_iff_eq.mpr hqr)] at h2
      rw [if_pos (beq_iff_eq.mpr (hpq.trans hqr))]
      exact lexLe_trans _ _ _ h1 h2
    · rw [if_pos (beq_iff_eq.mpr hpq)] at h1
      rw [if_neg (by simp only [beq_iff_eq]; exact hqr)] at h2
      have hpr : ¬ p.1 = r.1 := fun hh => hqr (hpq ▸ hh)
      rw [if_neg (by simp only [beq_iff_eq]; exact hpr)]
      rw [hpq]
      exact h2
  · by_cases hqr : q.1 = r.1
    · rw [if_neg (by simp only [beq_iff_eq]; exact hpq)] at h1
      rw [if_pos (beq_iff_eq.mpr hqr)] at h2
      have hpr : ¬ p.1 = r.1 := fun hh => hpq (hh.trans hqr.symm)
      rw [if_neg (by simp only [beq_iff_eq]; exact hpr)]
      rw [← hqr]
      exact h1
    · rw [if_neg (by simp only [beq_iff_eq]; exact hpq)] at h1
      rw [if_neg (by simp only [beq_iff_eq]; exact hqr)] at h2
      by_cases hpr : p.1 = r.1
      · rw [← hpr] at h2
        exact absurd (strLe_antisymm _ _ h1 h2) hpq
      · rw [if_neg (by simp only [beq_iff_eq]; exact hpr)]
        exact lexLe_trans _ _ _ h1 h2

instance : IsAntisymm (String × String) pairLe := by
  constructor
  intro p q h1 h2
  unfold pairLe at h1 h2
  by_cases h : p.1 = q.1
  · rw [if_pos (beq_iff_eq.mpr h)] at h1
    rw [if_pos (beq_iff_eq.mpr h.symm)] at h2
    exact Prod.ext h (strLe_antisymm _ _ h1 h2)
  · rw [if_neg (by simp only [beq_iff_eq]; exact h)] at h1
    rw [if_neg (by simp only [beq_iff_eq]; exact fun hh => h hh.symm)] at h2
    exact absurd (strLe_antisymm _ _ h1 h2) h

theorem sortedItems_perm_invariant (l l' : List (String × String)) (h : l.Perm l') :
    sortedItems l = sortedItems l' :=
  List.eq_of_perm_of_sorted
    ((List.perm_insertionSort _ l).trans (h.trans (List.perm_insertionSort _ l').symm))
    (List.sorted_insertionSort _ l) (List.sorted_insertionSort _ l')

/-- C10: `_get_cache_key` is a pure function of endpoint and parameter map:
parameter lists that are equal as key-value maps (i.e. permutations of each
other, as the item lists of equal dicts are) produce the identical cache key,
because the items are serialised in sorted order. -/
theorem getCacheKey_order_independent (endpoint : String) (l l' : List (String × String))
    (h : l.Perm l') : getCacheKey endpoint l = getCacheKey endpoint l' := by
  unfold getCacheKey
  rw [sortedItems_perm_invariant l l' h]

/-- Witness for C10: the two insertion orders of
`{"vs_currency": "usd", "days": "30"}` yield the same key, and that key is the
sorted serialisation. -/
theorem getCacheKey_order_independent_witness :
    getCacheKey "coins/markets" [("vs_currency", "usd"), ("days", "30")] =
      getCacheKey "coins/markets" [("days", "30"), ("vs_currency", "usd")] ∧
    getCacheKey "coins/markets" [("vs_currency", "usd"), ("days", "30")] =
      "coins/markets:days=30:vs_currency=usd" :=
  ⟨getCacheKey_order_independent "coins/markets" _ _
      (List.Perm.swap ("days", "30") ("vs_currency", "usd") []),
    by decide⟩

/-! ### Cache lookup (claim C2) -/

/-- C2: `_get_from_cache` returns the stored value exactly when the key is
present with age strictly below the provider's TTL (600 s crypto, 1800 s
World Bank); a fetch that hits returns the stored value unchanged, leaves the
provider state untouched and makes no upstream request, while a fetch that
misses goes on to make an upstream request. -/
theorem cache_lookup_ttl_spec :
    (∀ (α : Type) (cfg : ProviderConfig) (now : ℚ) (c : CacheMap α) (k : String) (v : α),
      getFromCache cfg now c k = some v ↔
        ∃ t, cacheLookup c k = some (t, v) ∧ now - t < cfg.cacheTtl) ∧
    cryptoConfig.cacheTtl = 600 ∧ worldBankConfig.cacheTtl = 1800 ∧
    (∀ (α : Type) (validate : α → Bool) (st : ProviderState α) (now : ℚ) (key : String)
      (u : Upstream α) (v : α),
      getFromCache cryptoConfig now st.cache key = some v →
      cryptoFetch validate st now key u = (.ok v, st, ⟨false, 0⟩)) ∧
    (∀ (ρ σ : Type) (pivot : List ρ → List σ) (st : ProviderState (List σ)) (now : ℚ)
      (key : String) (rows : List ρ) (d : List σ),
      getFromCache worldBankConfig now st.cache key = some d →
      wbGetEconomicIndicators pivot st now key rows = (d, st, ⟨false, 0⟩)) ∧
    (∀ (α : Type) (validate : α → Bool) (st : ProviderState α) (now : ℚ) (key : String)
      (u : Upstream α),
      getFromCache cryptoConfig now st.cache key = none →
      (cryptoFetch validate st now key u).2.2.requestMade = true) ∧
    (∀ (ρ σ : Type) (pivot : List ρ → List σ) (st : ProviderState (List σ)) (now : ℚ)
      (key : String) (rows : List ρ),
      getFromCache worldBankConfig now st.cache key = none →
      (wbGetEconomicIndicators pivot st now key rows).2.2.requestMade = true) := by
  refine ⟨?_, rfl, rfl, ?_, ?_, ?_, ?_⟩
  · intro α cfg now c k v
    unfold getFromCache isCacheValid
    cases h : cacheLookup c k with
    | none => simp
    | some td =>
      obtain ⟨t, d⟩ := td
      by_cases httl : now - t < cfg.cacheTtl <;> simp [httl]
      · constructor
        · intro hdv
          exact ⟨t, ⟨rfl, hdv⟩, httl⟩
        · rintro ⟨t', ⟨rfl, hdv⟩, -⟩
          exact hdv
      · intro _
        exact not_lt.mp httl
  · intro α validate st now key u v h
    unfold cryptoFetch
    rw [h]
  · intro ρ σ pivot st now key rows d h
    unfold wbGetEconomicIndicators
    rw [h]
  · intro α validate st now key u h
    unfold cryptoFetch
    rw [h]
    cases u with
    | unavailable msg => rfl
    | payload v =>
      by_cases hv : validate v = true
      · simp [hv]
      · simp [hv]
  · intro ρ σ pivot st now key rows h
    unfold wbGetEconomicIndicators
    rw [h]

/-- Witness for C2 at concrete inputs: a 590-second-old entry is still served
(state untouched, no request), and on an empty cache the fetch makes a request. -/
theorem cache_lookup_ttl_spec_witness :
    getFromCache cryptoConfig 600 [("k", (10 : ℚ), (7 : ℕ))] "k" = some 7 ∧
    cryptoFetch (fun _ => true) (⟨[("k", 10, 7)], 0⟩ : ProviderState ℕ) 600 "k"
      (.unavailable "down") = (.ok 7, ⟨[("k", 10, 7)], 0⟩, ⟨false, 0⟩) ∧
    (cryptoFetch (fun _ => true) (freshProvider ℕ) 600 "k"
      (.unavailable "down")).2.2.requestMade = true := by
  refine ⟨?_, ?_, ?_⟩
  · exact (cache_lookup_ttl_spec.1 ℕ cryptoConfig 600 _ "k" 7).mpr
      ⟨10, rfl, by norm_num [cryptoConfig]⟩
  · exact cache_lookup_ttl_spec.2.2.2.1 ℕ (fun _ => true) _ 600 "k" (.unavailable "down") 7
      (by norm_num [getFromCache, isCacheValid, cacheLookup, List.lookup, cryptoConfig])
  · exact cache_lookup_ttl_spec.2.2.2.2.2.1 ℕ (fun _ => true) _ 600 "k" (.unavailable "down")
      (by norm_num [getFromCache, isCacheValid, cacheLookup, List.lookup, freshProvider])

/-! ### Rate limiting (claim C3) -/

theorem reqTimes_gapped (cfg : ProviderConfig) :
    ∀ (evs : List (Bool × ℚ)) (last : ℚ), chrono cfg last evs →
      gapped cfg.minRequestInterval last (reqTimes cfg last evs) := by
  intro evs
  induction evs with
  | nil => intro last _; exact trivial
  | cons e es ih =>
    intro last hc
    obtain ⟨miss, now⟩ := e
    cases miss with
    | false =>
      simp only [chrono] at hc
      simpa only [reqTimes] using ih last hc
    | true =>
      simp only [chrono] at hc
      obtain ⟨hle, hc'⟩ := hc
      simp only [reqTimes, gapped]
      refine ⟨?_, ih _ hc'⟩
      unfold rateLimitDelay
      split_ifs with h
      · linarith
      · linarith [not_lt.mp h]

/-- C3: the rate limiter sleeps exactly the remaining part of the minimum
interval (5 s crypto, 10 s World Bank) when the elapsed time is short, sleeps
nothing otherwise, always initiates the upstream request at least the minimum
interval after the recorded previous request, and both fetch operations record
the initiation time into `_last_request_time`; consequently along any
chronological sequence of calls consecutive upstream requests are at least the
minimum interval apart. -/
theorem rate_limit_spec :
    cryptoConfig.minRequestInterval = 5 ∧ worldBankConfig.minRequestInterval = 10 ∧
    (∀ (cfg : ProviderConfig) (lastReq now : ℚ),
      (now - lastReq < cfg.minRequestInterval →
        rateLimitDelay cfg lastReq now = cfg.minRequestInterval - (now - lastReq)) ∧
      (cfg.minRequestInterval ≤ now - lastReq → rateLimitDelay cfg lastReq now = 0) ∧
      cfg.minRequestInterval ≤ now + rateLimitDelay cfg lastReq now - lastReq) ∧
    (∀ (α : Type) (validate : α → Bool) (st : ProviderState α) (now : ℚ) (key : String)
      (u : Upstream α),
      getFromCache cryptoConfig now st.cache key = none →
      (cryptoFetch validate st now key u).2.2.sleptFor
          = rateLimitDelay cryptoConfig st.lastRequestTime now ∧
      (cryptoFetch validate st now key u).2.1.lastRequestTime
          = now + rateLimitDelay cryptoConfig st.lastRequestTime now) ∧
    (∀ (ρ σ : Type) (pivot : List ρ → List σ) (st : ProviderState (List σ)) (now : ℚ)
      (key : String) (rows : List ρ),
      getFromCache worldBankConfig now st.cache key = none →
      (wbGetEconomicIndicators pivot st now key rows).2.2.sleptFor
          = rateLimitDelay worldBankConfig st.lastRequestTime now ∧
      (wbGetEconomicIndicators pivot st now key rows).2.1.lastRequestTime
          = now + rateLimitDelay worldBankConfig st.lastRequestTime now) ∧
    (∀ (cfg : ProviderConfig) (last : ℚ) (evs : List (Bool × ℚ)),
      chrono cfg last evs → gapped cfg.minRequestInterval last (reqTimes cfg last evs)) := by
  refine ⟨rfl, rfl, ?_, ?_, ?_, fun cfg last evs => reqTimes_gapped cfg evs last⟩
  · intro cfg lastReq now
    unfold rateLimitDelay
    refine ⟨fun h => if_pos h, fun h => if_neg (not_lt.mpr h), ?_⟩
    split_ifs with h
    · linarith
    · linarith [not_lt.mp h]
  · intro α validate st now key u h
    unfold cryptoFetch
    rw [h]
    cases u with
    | unavailable msg => exact ⟨rfl, rfl⟩
    | payload v =>
      by_cases hv : validate v = true
      · simp [hv]
      · simp [hv]
  · intro ρ σ pivot st now key rows h
    unfold wbGetEconomicIndicators
    rw [h]
    exact ⟨rfl, rfl⟩

/-- Witness for C3 at concrete inputs: a crypto fetch entering 3 s after the
previous request sleeps 2 s and records time 105; the two-miss sequence
entering at 3 and 6 yields requests at 5 and 10 (5 s apart). -/
theorem rate_limit_spec_witness :
    rateLimitDelay cryptoConfig 100 103 = 2 ∧
    (cryptoFetch (fun _ => true) (⟨[], 100⟩ : ProviderState ℕ) 103 "global"
        (.payload 5)).2.1.lastRequestTime = 103 + rateLimitDelay cryptoConfig 100 103 ∧
    reqTimes cryptoConfig 0 [(true, 3), (true, 6)] = [5, 10] ∧
    gapped cryptoConfig.minRequestInterval 0 (reqTimes cryptoConfig 0 [(true, 3), (true, 6)]) := by
  have h1 : rateLimitDelay cryptoConfig 100 103 = 2 := by
    norm_num [rateLimitDelay, cryptoConfig]
  refine ⟨h1, ?_, ?_, ?_⟩
  · exact ((rate_limit_spec.2.2.2.1 ℕ (fun _ => true) ⟨[], 100⟩ 103 "global" (.payload 5))
      (by norm_num [getFromCache, isCacheValid, cacheLookup, List.lookup])).2
  · norm_num [reqTimes, rateLimitDelay, cryptoConfig]
  · exact rate_limit_spec.2.2.2.2.2 cryptoConfig 0 [(true, 3), (true, 6)]
      (by norm_num [chrono, rateLimitDelay, cryptoConfig])

/-! ### No eviction (claim C4) -/

theorem lookup_filter_ne (c : CacheMap α) (k k' : String) (h : ¬ k' = k) :
    (c.filter fun e => !(e.1 == k)).lookup k' = c.lookup k' := by
  induction c with
  | nil => rfl
  | cons e c ih =>
    obtain ⟨k₀, v₀⟩ := e
    by_cases hk : k₀ = k
    · subst hk
      have h2 : (k' == k₀) = false := by simp [h]
      simp [List.filter_cons, List.lookup, h2, ih]
    · have h1 : (!(k₀ == k)) = true := by simp [hk]
      simp only [List.filter_cons, h1, if_true]
      by_cases hk' : k' = k₀
      · subst hk'
        simp [List.lookup]
      · have h2 : (k' == k₀) = false := by simp [hk']
        simp [List.lookup, h2, ih]

theorem saveToCache_lookup (c : CacheMap α) (k : String) (now : ℚ) (d : α) (k' : String) :
    cacheLookup (saveToCache c k now d) k' =
      if k' = k then some (now, d) else cacheLookup c k' := by
  unfold saveToCache cacheLookup
  by_cases hk : k' = k
  · subst hk
    simp [List.lookup]
  · have h2 : (k' == k) = false := by simp [hk]
    simp [List.lookup, h2, hk, lookup_filter_ne c k k' hk]

/-- C4: the cache never evicts: a save rebinds exactly the saved key and leaves
every other binding intact; an expired entry makes the lookup return nothing
but stays in the map (a cache-hitting fetch leaves the map identical, and no
fetch ever removes a key); the only removing operation is `clear_cache`, which
empties the map. -/
theorem cache_no_eviction_spec :
    (∀ (α : Type) (c : CacheMap α) (k : String) (now : ℚ) (d : α) (k' : String),
      cacheLookup (saveToCache c k now d) k' =
        if k' = k then some (now, d) else cacheLookup c k') ∧
    (∀ (α : Type) (cfg : ProviderConfig) (now : ℚ) (c : CacheMap α) (k : String) (t : ℚ) (d : α),
      cacheLookup c k = some (t, d) → ¬ now - t < cfg.cacheTtl →
      getFromCache cfg now c k = none) ∧
    (∀ (α : Type) (validate : α → Bool) (st : ProviderState α) (now : ℚ) (key : String)
      (u : Upstream α) (v : α),
      getFromCache cryptoConfig now st.cache key = some v →
      (cryptoFetch validate st now key u).2.1.cache = st.cache) ∧
    (∀ (α : Type) (validate : α → Bool) (st : ProviderState α) (now : ℚ) (key : String)
      (u : Upstream α) (k' : String),
      (cacheLookup st.cache k').isSome = true →
      (cacheLookup (cryptoFetch validate st now key u).2.1.cache k').isSome = true) ∧
    (∀ (ρ σ : Type) (pivot : List ρ → List σ) (st : ProviderState (List σ)) (now : ℚ)
      (key : String) (rows : List ρ) (k' : String),
      (cacheLookup st.cache k').isSome = true →
      (cacheLookup (wbGetEconomicIndicators pivot st now key rows).2.1.cache k').isSome = true) ∧
    (∀ (α : Type) (c : CacheMap α) (k : String), cacheLookup (clearCache c) k = none) := by
  refine ⟨fun α => saveToCache_lookup, ?_, ?_, ?_, ?_, fun α c k => rfl⟩
  · intro α cfg now c k t d hl httl
    simp [getFromCache, isCacheValid, hl, httl]
  · intro α validate st now key u v h
    unfold cryptoFetch
    rw [h]
  · intro α validate st now key u k' hsome
    unfold cryptoFetch
    cases hca : getFromCache cryptoConfig now st.cache key with
    | some d => exact hsome
    | none =>
      cases u with
      | unavailable msg => exact hsome
      | payload v =>
        by_cases hv : validate v = true
        · simp only [hv, if_true]
          rw [saveToCache_lookup]
          split_ifs with hk
          · rfl
          · exact hsome
        · simp only [hv, if_false]
          exact hsome
  · intro ρ σ pivot st now key rows k' hsome
    unfold wbGetEconomicIndicators
    cases hca : getFromCache worldBankConfig now st.cache key with
    | some d => exact hsome
    | none =>
      rw [saveToCache_lookup]
      by_cases hk : k' = key
      · simp [hk]
      · simp [hk, hsome]

/-- Witness for C4 at concrete inputs: an entry aged beyond the TTL is not
served but survives; a fetch that overwrites the expired key keeps it present;
a save leaves an unrelated key's binding unchanged. -/
theorem cache_no_eviction_spec_witness :
    getFromCache cryptoConfig 9999 [("k", (10 : ℚ), (7 : ℕ))] "k" = none ∧
    (cacheLookup (cryptoFetch (fun _ => true) (⟨[("k", 10, 7)], 0⟩ : ProviderState ℕ) 9999 "k"
        (.payload 3)).2.1.cache "k").isSome = true ∧
    cacheLookup (saveToCache [("a", (1 : ℚ), (2 : ℕ))] "b" 5 9) "a" = some (1, 2) := by
  refine ⟨?_, ?_, ?_⟩
  · exact cache_no_eviction_spec.2.1 ℕ cryptoConfig 9999 _ "k" 10 7 rfl
      (by norm_num [cryptoConfig])
  · exact cache_no_eviction_spec.2.2.2.1 ℕ (fun _ => true) ⟨[("k", 10, 7)], 0⟩ 9999 "k"
      (.payload 3) "k" rfl
  · rw [cache_no_eviction_spec.1 ℕ [("a", (1 : ℚ), (2 : ℕ))] "b" 5 9 "a"]
    rw [if_neg (by decide : ¬ "a" = "b")]
    rfl

/-! ### Fallback behaviour on upstream failure (claim C1) -/

/-- Counterexample to C1 as stated: with an empty cache and the upstream
unavailable, `get_market_data`/`get_coin_history`/`get_global` (all embedded by
`cryptoFetch`) propagate the failure as a raised exception — no sample or
fallback data is returned to the caller. -/
theorem crypto_no_fallback_counterexample :
    (cryptoFetch (fun _ => true) (freshProvider ℕ) 100 "coins/markets"
        (.unavailable "CoinGecko API is not responding")).1
      = .raised "CoinGecko API is not responding" := by
  unfold cryptoFetch
  norm_num [getFromCache, isCacheValid, cacheLookup, List.lookup, freshProvider]

/-- C1 (amended): no fetch operation of either provider ever returns
sample/fallback data.  When the upstream API is unavailable, every crypto
fetch operation propagates the failure by raising an exception; when it
answers with a payload that passes the operation's validation — in particular
an empty list, which passes `get_market_data`'s `isinstance(data, list)`
check, and any payload at all for `get_coin_history`/`get_global`, which
validate nothing — that payload is cached and returned to the caller
unchanged, empty or not.  Only the World Bank `get_economic_indicators`
degrades gracefully: for an unavailable API or an empty payload it returns
(and caches) an empty DataFrame — not sample data. -/
theorem upstream_failure_behaviour :
    (∀ (α : Type) (validate : α → Bool) (st : ProviderState α) (now : ℚ) (key msg : String),
      getFromCache cryptoConfig now st.cache key = none →
      (cryptoFetch validate st now key (.unavailable msg)).1 = .raised msg) ∧
    (∀ (α : Type) (validate : α → Bool) (st : ProviderState α) (now : ℚ) (key : String)
      (v : α),
      getFromCache cryptoConfig now st.cache key = none → validate v = true →
      (cryptoFetch validate st now key (.payload v)).1 = .ok v ∧
      cacheLookup (cryptoFetch validate st now key (.payload v)).2.1.cache key
        = some ((cryptoFetch validate st now key (.payload v)).2.1.lastRequestTime, v)) ∧
    (∀ (ρ σ : Type) (pivot : List ρ → List σ) (st : ProviderState (List σ)) (now : ℚ)
      (key : String),
      getFromCache worldBankConfig now st.cache key = none →
      (wbGetEconomicIndicators pivot st now key ([] : List ρ)).1 = [] ∧
      cacheLookup (wbGetEconomicIndicators pivot st now key ([] : List ρ)).2.1.cache key
        = some ((wbGetEconomicIndicators pivot st now key ([] : List ρ)).2.1.lastRequestTime,
            [])) := by
  refine ⟨?_, ?_, ?_⟩
  · intro α validate st now key msg h
    unfold cryptoFetch
    rw [h]
  · intro α validate st now key v h hv
    unfold cryptoFetch
    rw [h]
    simp only [hv, if_true]
    refine ⟨trivial, ?_⟩
    rw [saveToCache_lookup]
    simp
  · intro ρ σ pivot st now key h
    unfold wbGetEconomicIndicators
    rw [h]
    refine ⟨rfl, ?_⟩
    simp only [List.isEmpty_nil, if_true]
    rw [saveToCache_lookup]
    simp

/-- Witness for the amended C1 at concrete inputs (fresh providers): upstream
down makes the crypto fetch raise; an empty-list payload (which passes the
`isinstance(data, list)` validation) is returned unchanged as the result; the
World Bank fetch of an unavailable/empty upstream returns the empty frame. -/
theorem upstream_failure_behaviour_witness :
    (cryptoFetch (fun _ => true) (freshProvider ℕ) 50 "global" (.unavailable "down")).1
      = .raised "down" ∧
    (cryptoFetch (fun _ : List ℕ => true) (freshProvider (List ℕ)) 50 "coins/markets"
        (.payload ([] : List ℕ))).1 = .ok [] ∧
    (wbGetEconomicIndicators (fun r => r) (freshProvider (List ℕ)) 50 "economic_indicators"
        ([] : List ℕ)).1 = [] := by
  refine ⟨?_, ?_, ?_⟩
  · exact upstream_failure_behaviour.1 ℕ (fun _ => true) (freshProvider ℕ) 50 "global" "down"
      (by norm_num [getFromCache, isCacheValid, cacheLookup, List.lookup, freshProvider])
  · exact (upstream_failure_behaviour.2.1 (List ℕ) (fun _ => true) (freshProvider (List ℕ)) 50
      "coins/markets" []
      (by norm_num [getFromCache, isCacheValid, cacheLookup, List.lookup, freshProvider])
      rfl).1
  · exact (upstream_failure_behaviour.2.2 ℕ ℕ (fun r => r) (freshProvider (List ℕ)) 50
      "economic_indicators"
      (by norm_num [getFromCache, isCacheValid, cacheLookup, List.lookup, freshProvider])).1

/-! ### GET /api/sales filtering (claim C5) -/

theorem pandasHead_subset (n : ℤ) (l : List α) : pandasHead n l ⊆ l := by
  unfold pandasHead
  split_ifs <;> exact List.take_subset _ _

theorem mem_filterSales {rows : List SalesRecord} {s e : Option ℤ} {c r : Option String}
    {x : SalesRecord} (hx : x ∈ filterSales rows s e c r) :
    satisfiesFilters x s e c r := by
  unfold filterSales at hx
  unfold satisfiesFilters
  rcases s with - | sv <;> rcases e with - | ev <;> rcases c with - | cv <;> rcases r with - | rv <;>
    simp_all [List.mem_filter]

/-- Counterexample to C5 as stated: `limit` is an unconstrained `int` query
parameter, and for a negative value pandas' `head` keeps all but the last
`|limit|` rows, so a request with `limit = -1` over two matching records
returns one record — more than `limit`. -/
theorem getSales_negative_limit_counterexample :
    (getSales [⟨0, "Electronics", "Kyiv"⟩, ⟨1, "Electronics", "Kyiv"⟩]
        none none none none (-1)).length = 1 ∧ ¬ ((1 : ℤ) ≤ -1) := by
  constructor
  · rfl
  · decide

/-- C5 (amended): every record returned by `get_sales` satisfies all supplied
filters, and — for the non-negative limits of every intended request,
including the default 1000 — the result is exactly the first `limit` records
of the filtered table, hence at most `limit` records; for negative `limit`
pandas' `head` instead drops the last `|limit|` rows. -/
theorem getSales_filter_spec :
    ∀ (rows : List SalesRecord) (startDate endDate : Option ℤ)
      (category region : Option String) (limit : ℤ),
      (∀ x ∈ getSales rows startDate endDate category region limit,
        satisfiesFilters x startDate endDate category region) ∧
      (0 ≤ limit →
        getSales rows startDate endDate category region limit
          = (filterSales rows startDate endDate category region).take limit.toNat ∧
        ((getSales rows startDate endDate category region limit).length : ℤ) ≤ limit) := by
  intro rows startDate endDate category region limit
  constructor
  · intro x hx
    exact mem_filterSales (pandasHead_subset _ _ hx)
  · intro hlim
    have hhead : getSales rows startDate endDate category region limit
        = (filterSales rows startDate endDate category region).take limit.toNat := by
      unfold getSales pandasHead
      rw [if_pos hlim]
    refine ⟨hhead, ?_⟩
    rw [hhead]
    calc ((List.take limit.toNat (filterSales rows startDate endDate category region)).length : ℤ)
        ≤ (limit.toNat : ℤ) := by exact_mod_cast List.length_take_le _ _
      _ = limit := Int.toNat_of_nonneg hlim

/-- Witness for the amended C5 at a concrete request: date range [1, 7],
category and region filters, default limit. -/
theorem getSales_filter_spec_witness :
    getSales [⟨5, "Electronics", "Kyiv"⟩, ⟨9, "Food", "Lviv"⟩] (some 1) (some 7)
        (some "Electronics") (some "Kyiv") 1000 = [⟨5, "Electronics", "Kyiv"⟩] ∧
    satisfiesFilters ⟨5, "Electronics", "Kyiv"⟩ (some 1) (some 7)
      (some "Electronics") (some "Kyiv") ∧
    ((getSales [⟨5, "Electronics", "Kyiv"⟩, ⟨9, "Food", "Lviv"⟩] (some 1) (some 7)
        (some "Electronics") (some "Kyiv") 1000).length : ℤ) ≤ 1000 := by
  refine ⟨by decide, ?_, ?_⟩
  · exact (getSales_filter_spec [⟨5, "Electronics", "Kyiv"⟩, ⟨9, "Food", "Lviv"⟩] (some 1) (some 7)
      (some "Electronics") (some "Kyiv") 1000).1 ⟨5, "Electronics", "Kyiv"⟩ (by decide)
  · exact ((getSales_filter_spec [⟨5, "Electronics", "Kyiv"⟩, ⟨9, "Food", "Lviv"⟩] (some 1) (some 7)
      (some "Electronics") (some "Kyiv") 1000).2 (by decide)).2

/-! ### Handlers whose `except Exception` swallows their own `HTTPException`
(claim C8) -/

/-- C8: for a missing or non-`.csv` file, the bodies of
`GET /api/files/{filename}` and `GET /api/files/{filename}/stats` raise
`HTTPException(404)`, which the handler's own `except Exception` clause
re-wraps, so the response status is 500 — never 404; likewise the 400 raised
for an unknown indicator in `GET /api/worldbank/comparison` becomes a 500. -/
theorem handler_500_wrap_spec :
    (∀ (α : Type) (existing : List String) (readCsv : String → Except PyExn α)
      (filename : String),
      existing.contains filename = false ∨ strEndsWith filename ".csv" = false →
      fileEndpointBody existing readCsv filename = .error (.http 404 "Файл не знайдено") ∧
      getFileContentStatus existing readCsv filename = 500 ∧
      getFileContentStatus existing readCsv filename ≠ 404 ∧
      getFileStatsStatus existing readCsv filename = 500 ∧
      getFileStatsStatus existing readCsv filename ≠ 404) ∧
    (∀ (α : Type) (indicator : String) (fetch : Except PyExn α),
      wbIndicatorNames.contains indicator = false →
      comparisonBody indicator fetch = .error (.http 400 ("Невідомий індикатор: " ++ indicator)) ∧
      getComparisonStatus indicator fetch = 500 ∧
      getComparisonStatus indicator fetch ≠ 400) := by
  constructor
  · intro α existing readCsv filename h
    have hcond : (!(existing.contains filename) || !(strEndsWith filename ".csv")) = true := by
      rcases h with h | h
      · rw [h]
        rfl
      · rw [h]
        cases existing.contains filename <;> rfl
    have hb : fileEndpointBody existing readCsv filename
        = .error (.http 404 "Файл не знайдено") := by
      unfold fileEndpointBody
      rw [if_pos hcond]
    refine ⟨hb, ?_, ?_, ?_, ?_⟩ <;>
      simp [getFileContentStatus, getFileStatsStatus, handlerStatus, hb]
  · intro α indicator fetch h
    have hb : comparisonBody indicator fetch
        = .error (.http 400 ("Невідомий індикатор: " ++ indicator)) := by
      unfold comparisonBody
      rw [if_pos (by rw [h]; rfl : (!(wbIndicatorNames.contains indicator)) = true)]
    refine ⟨hb, ?_, ?_⟩ <;> simp [getComparisonStatus, handlerStatus, hb]

/-- Witness for C8 at concrete inputs: a request for `absent.csv` (not on
disk) gets status 500, a request for the present but non-CSV `notes.txt` gets
status 500, and an unknown indicator `FOO` gets status 500. -/
theorem handler_500_wrap_spec_witness :
    getFileContentStatus (α := ℕ) ["sales.csv", "notes.txt"] (fun _ => .ok 0) "absent.csv" = 500 ∧
    getFileStatsStatus (α := ℕ) ["sales.csv", "notes.txt"] (fun _ => .ok 0) "notes.txt" = 500 ∧
    getComparisonStatus (α := ℕ) "FOO" (.ok 0) = 500 := by
  refine ⟨?_, ?_, ?_⟩
  · exact (handler_500_wrap_spec.1 ℕ ["sales.csv", "notes.txt"] (fun _ => .ok 0) "absent.csv"
      (Or.inl (by decide))).2.1
  · exact (handler_500_wrap_spec.1 ℕ ["sales.csv", "notes.txt"] (fun _ => .ok 0) "notes.txt"
      (Or.inr (by decide))).2.2.2.1
  · exact (handler_500_wrap_spec.2 ℕ "FOO" (.ok 0) (by decide)).2.1

/-! ### `load_data` never reuses its cache (claim C9) -/

/-- C9: `load_data` resets the module-level `cached_data` to `None` before
checking it, so its result never depends on the previously cached value: every
call re-reads the five CSV files (the result is exactly their current
contents when all five exist and parse) and regenerates all data when a
required file is missing or unreadable. -/
theorem loadData_no_reuse_spec :
    (∀ (τ : Type) (gen : DemoData τ) (cached cached' : Option (DemoData τ)) (dir : DataDir τ),
      loadData gen cached dir = loadData gen cached' dir) ∧
    (∀ (τ : Type) (gen : DemoData τ) (cached : Option (DemoData τ)) (dir : DataDir τ)
      (d : DemoData τ),
      allFilesExist dir = true → readAll dir = .ok d →
      loadData gen cached dir = (d, some d)) ∧
    (∀ (τ : Type) (gen : DemoData τ) (cached : Option (DemoData τ)) (dir : DataDir τ),
      allFilesExist dir = false → loadData gen cached dir = (gen, some gen)) ∧
    (∀ (τ : Type) (gen : DemoData τ) (cached : Option (DemoData τ)) (dir : DataDir τ)
      (msg : String),
      readAll dir = .error msg → loadData gen cached dir = (gen, some gen)) := by
  refine ⟨fun τ gen cached cached' dir => rfl, ?_, ?_, ?_⟩
  · intro τ gen cached dir d hex hread
    unfold loadData
    rw [hex, if_pos rfl, hread]
  · intro τ gen cached dir hex
    unfold loadData
    rw [hex]
    rfl
  · intro τ gen cached dir msg hread
    unfold loadData
    by_cases hex : allFilesExist dir = true
    · rw [hex, if_pos rfl, hread]
    · rw [Bool.not_eq_true] at hex
      rw [hex]
      rfl

/-- Witness for C9 at concrete directory states: a stale cached value is
ignored and the files re-read; with `trends.csv` missing the data is
regenerated despite a cached value. -/
theorem loadData_no_reuse_spec_witness :
    loadData (⟨0, 0, 0, 0, 0⟩ : DemoData ℕ) (some ⟨9, 9, 9, 9, 9⟩)
        ⟨some (.ok 1), some (.ok 2), some (.ok 3), some (.ok 4), some (.ok 5)⟩
      = (⟨1, 2, 3, 4, 5⟩, some ⟨1, 2, 3, 4, 5⟩) ∧
    loadData (⟨0, 0, 0, 0, 0⟩ : DemoData ℕ) (some ⟨9, 9, 9, 9, 9⟩)
        ⟨some (.ok 1), some (.ok 2), some (.ok 3), none, some (.ok 5)⟩
      = (⟨0, 0, 0, 0, 0⟩, some ⟨0, 0, 0, 0, 0⟩) := by
  constructor
  · exact loadData_no_reuse_spec.2.1 ℕ ⟨0, 0, 0, 0, 0⟩ (some ⟨9, 9, 9, 9, 9⟩)
      ⟨some (.ok 1), some (.ok 2), some (.ok 3), some (.ok 4), some (.ok 5)⟩
      ⟨1, 2, 3, 4, 5⟩ (by decide) (by rfl)
  · exact loadData_no_reuse_spec.2.2.1 ℕ ⟨0, 0, 0, 0, 0⟩ (some ⟨9, 9, 9, 9, 9⟩)
      ⟨some (.ok 1), some (.ok 2), some (.ok 3), none, some (.ok 5)⟩ (by decide)

/-! ### Economic health scoring (claim C7) -/

theorem gdpScore_mem (v : ℚ) :
    gdpScore v = 20 ∨ gdpScore v = 40 ∨ gdpScore v = 60 ∨ gdpScore v = 80 ∨ gdpScore v = 100 := by
  unfold gdpScore
  split_ifs <;> simp

theorem inflationScore_mem (v : ℚ) :
    inflationScore v = 20 ∨ inflationScore v = 40 ∨ inflationScore v = 60 ∨
      inflationScore v = 80 ∨ inflationScore v = 100 := by
  unfold inflationScore
  split_ifs <;> simp

theorem unemploymentScore_mem (v : ℚ) :
    unemploymentScore v = 20 ∨ unemploymentScore v = 40 ∨ unemploymentScore v = 60 ∨
      unemploymentScore v = 80 ∨ unemploymentScore v = 100 := by
  unfold unemploymentScore
  split_ifs <;> simp

theorem lifeScore_mem (v : ℚ) :
    lifeScore v = 20 ∨ lifeScore v = 40 ∨ lifeScore v = 60 ∨ lifeScore v = 80 ∨
      lifeScore v = 100 := by
  unfold lifeScore
  split_ifs <;> simp

theorem gdpScore_bounds (v : ℚ) : 20 ≤ gdpScore v ∧ gdpScore v ≤ 100 := by
  unfold gdpScore
  split_ifs <;> norm_num

theorem inflationScore_bounds (v : ℚ) : 20 ≤ inflationScore v ∧ inflationScore v ≤ 100 := by
  unfold inflationScore
  split_ifs <;> norm_num

theorem unemploymentScore_bounds (v : ℚ) :
    20 ≤ unemploymentScore v ∧ unemploymentScore v ≤ 100 := by
  unfold unemploymentScore
  split_ifs <;> norm_num

theorem lifeScore_bounds (v : ℚ) : 20 ≤ lifeScore v ∧ lifeScore v ≤ 100 := by
  unfold lifeScore
  split_ifs <;> norm_num

theorem roundTo1_intCast (n : ℤ) : roundTo1 ((n : ℚ)) = (n : ℚ) := by
  unfold roundTo1
  rw [show (10 : ℚ) * (n : ℚ) = ((10 * n : ℤ) : ℚ) by push_cast; ring, round_intCast]
  push_cast
  ring

theorem gdpTerm_int (o : Option ℚ) : ∃ z : ℤ, gdpTerm o = (z : ℚ) := by
  cases o with
  | none => exact ⟨0, by simp [gdpTerm]⟩
  | some v =>
    rcases gdpScore_mem v with h | h | h | h | h
    · exact ⟨6, by simp [gdpTerm, h]; norm_num⟩
    · exact ⟨12, by simp [gdpTerm, h]; norm_num⟩
    · exact ⟨18, by simp [gdpTerm, h]; norm_num⟩
    · exact ⟨24, by simp [gdpTerm, h]; norm_num⟩
    · exact ⟨30, by simp [gdpTerm, h]; norm_num⟩

theorem inflationTerm_int (o : Option ℚ) : ∃ z : ℤ, inflationTerm o = (z : ℚ) := by
  cases o with
  | none => exact ⟨0, by simp [inflationTerm]⟩
  | some v =>
    rcases inflationScore_mem v with h | h | h | h | h
    · exact ⟨5, by simp [inflationTerm, h]; norm_num⟩
    · exact ⟨10, by simp [inflationTerm, h]; norm_num⟩
    · exact ⟨15, by simp [inflationTerm, h]; norm_num⟩
    · exact ⟨20, by simp [inflationTerm, h]; norm_num⟩
    · exact ⟨25, by simp [inflationTerm, h]; norm_num⟩

theorem unemploymentTerm_int (o : Option ℚ) : ∃ z : ℤ, unemploymentTerm o = (z : ℚ) := by
  cases o with
  | none => exact ⟨0, by simp [unemploymentTerm]⟩
  | some v =>
    rcases unemploymentScore_mem v with h | h | h | h | h
    · exact ⟨5, by simp [unemploymentTerm, h]; norm_num⟩
    · exact ⟨10, by simp [unemploymentTerm, h]; norm_num⟩
    · exact ⟨15, by simp [unemploymentTerm, h]; norm_num⟩
    · exact ⟨20, by simp [unemploymentTerm, h]; norm_num⟩
    · exact ⟨25, by simp [unemploymentTerm, h]; norm_num⟩

theorem lifeTerm_int (o : Option ℚ) : ∃ z : ℤ, lifeTerm o = (z : ℚ) := by
  cases o with
  | none => exact ⟨0, by simp [lifeTerm]⟩
  | some v =>
    rcases lifeScore_mem v with h | h | h | h | h
    · exact ⟨4, by simp [lifeTerm, h]; norm_num⟩
    · exact ⟨8, by simp [lifeTerm, h]; norm_num⟩
    · exact ⟨12, by simp [lifeTerm, h]; norm_num⟩
    · exact ⟨16, by simp [lifeTerm, h]; norm_num⟩
    · exact ⟨20, by simp [lifeTerm, h]; norm_num⟩

theorem healthScore_int (r : CountryRow) : ∃ z : ℤ, healthScore r = (z : ℚ) := by
  obtain ⟨zg, hg⟩ := gdpTerm_int r.gdpPerCapita
  obtain ⟨zi, hi⟩ := inflationTerm_int r.inflation
  obtain ⟨zu, hu⟩ := unemploymentTerm_int r.unemployment
  obtain ⟨zl, hl⟩ := lifeTerm_int r.lifeExpectancy
  exact ⟨zg + zi + zu + zl, by unfold healthScore; rw [hg, hi, hu, hl]; push_cast; ring⟩

/-- C7: the health score is the weighted sum of the present component scores
with weights 0.30 / 0.25 / 0.25 / 0.20 (absent components are omitted), each
component score lies in {20, 40, 60, 80, 100}, the reported (rounded) score
equals the accumulated score exactly, with all four indicators present the
score lies between 20 and 100, and the health level follows the 80/60/40/20
thresholds. -/
theorem health_score_spec :
    (∀ v : ℚ,
      (gdpScore v = 20 ∨ gdpScore v = 40 ∨ gdpScore v = 60 ∨ gdpScore v = 80 ∨
        gdpScore v = 100) ∧
      (inflationScore v = 20 ∨ inflationScore v = 40 ∨ inflationScore v = 60 ∨
        inflationScore v = 80 ∨ inflationScore v = 100) ∧
      (unemploymentScore v = 20 ∨ unemploymentScore v = 40 ∨ unemploymentScore v = 60 ∨
        unemploymentScore v = 80 ∨ unemploymentScore v = 100) ∧
      (lifeScore v = 20 ∨ lifeScore v = 40 ∨ lifeScore v = 60 ∨ lifeScore v = 80 ∨
        lifeScore v = 100)) ∧
    (∀ g i u l : ℚ,
      healthScore ⟨some g, some i, some u, some l⟩
        = gdpScore g * (30 / 100) + inflationScore i * (25 / 100)
          + unemploymentScore u * (25 / 100) + lifeScore l * (20 / 100) ∧
      20 ≤ healthScore ⟨some g, some i, some u, some l⟩ ∧
      healthScore ⟨some g, some i, some u, some l⟩ ≤ 100) ∧
    (∀ r : CountryRow, reportedHealthScore r = healthScore r) ∧
    (∀ s : ℚ,
      (80 ≤ s → healthLevel s = "Excellent") ∧
      (60 ≤ s → s < 80 → healthLevel s = "Good") ∧
      (40 ≤ s → s < 60 → healthLevel s = "Medium") ∧
      (20 ≤ s → s < 40 → healthLevel s = "Poor") ∧
      (s < 20 → healthLevel s = "Critical")) := by
  refine ⟨?_, ?_, ?_, ?_⟩
  · intro v
    exact ⟨gdpScore_mem v, inflationScore_mem v, unemploymentScore_mem v, lifeScore_mem v⟩
  · intro g i u l
    have hsum : healthScore ⟨some g, some i, some u, some l⟩
        = gdpScore g * (3 / 10) + inflationScore i * (1 / 4)
          + unemploymentScore u * (1 / 4) + lifeScore l * (1 / 5) := rfl
    refine ⟨by rw [hsum]; ring, ?_, ?_⟩
    · rw [hsum]
      obtain ⟨h1, -⟩ := gdpScore_bounds g
      obtain ⟨h2, -⟩ := inflationScore_bounds i
      obtain ⟨h3, -⟩ := unemploymentScore_bounds u
      obtain ⟨h4, -⟩ := lifeScore_bounds l
      linarith
    · rw [hsum]
      obtain ⟨-, h1⟩ := gdpScore_bounds g
      obtain ⟨-, h2⟩ := inflationScore_bounds i
      obtain ⟨-, h3⟩ := unemploymentScore_bounds u
      obtain ⟨-, h4⟩ := lifeScore_bounds l
      linarith
  · intro r
    obtain ⟨z, hz⟩ := healthScore_int r
    unfold reportedHealthScore
    rw [hz, roundTo1_intCast]
  · intro s
    unfold healthLevel
    refine ⟨?_, ?_, ?_, ?_, ?_⟩
    · intro h
      rw [if_pos h]
    · intro h1 h2
      rw [if_neg (by linarith), if_pos h1]
    · intro h1 h2
      rw [if_neg (by linarith), if_neg (by linarith), if_pos h1]
    · intro h1 h2
      rw [if_neg (by linarith), if_neg (by linarith), if_neg (by linarith), if_pos h1]
    · intro h
      rw [if_neg (by linarith), if_neg (by linarith), if_neg (by linarith),
        if_neg (by linarith)]

/-- Witness for C7 at a concrete country row (GDP/capita 60000, inflation 1 %,
unemployment 2 %, life expectancy 70): score 88, level Excellent, reported
value unrounded. -/
theorem health_score_spec_witness :
    healthScore ⟨some 60000, some 1, some 2, some 70⟩ = 88 ∧
    reportedHealthScore ⟨some 60000, some 1, some 2, some 70⟩
      = healthScore ⟨some 60000, some 1, some 2, some 70⟩ ∧
    20 ≤ healthScore ⟨some 60000, some 1, some 2, some 70⟩ ∧
    healthScore ⟨some 60000, some 1, some 2, some 70⟩ ≤ 100 ∧
    healthLevel (healthScore ⟨some 60000, some 1, some 2, some 70⟩) = "Excellent" := by
  have h88 : healthScore ⟨some 60000, some 1, some 2, some 70⟩ = 88 := by
    norm_num [healthScore, gdpTerm, inflationTerm, unemploymentTerm, lifeTerm,
      gdpScore, inflationScore, unemploymentScore, lifeScore]
  refine ⟨h88, health_score_spec.2.2.1 _, (health_score_spec.2.1 60000 1 2 70).2.1,
    (health_score_spec.2.1 60000 1 2 70).2.2, ?_⟩
  exact (health_score_spec.2.2.2 (healthScore ⟨some 60000, some 1, some 2, some 70⟩)).1
    (by rw [h88]; norm_num)

/-! ### Trend analysis: the polyfit slope is the least-squares slope (claim C6) -/

theorem sqErr_expand (m b : ℚ) : ∀ ps : List (ℚ × ℚ),
    sqErr ps m b = sYY ps + m ^ 2 * sXX ps + (ps.length : ℚ) * b ^ 2
      - 2 * m * sXY ps - 2 * b * sY ps + 2 * m * b * sX ps := by
  intro ps
  induction ps with
  | nil => simp [sqErr, sYY, sXX, sXY, sY, sX]
  | cons p ps ih =>
    simp only [sqErr, sYY, sXX, sXY, sY, sX, List.map_cons, List.sum_cons,
      List.length_cons] at ih ⊢
    push_cast
    linear_combination ih

theorem xIndices_length (n : ℕ) : (xIndices n).length = n := by
  unfold xIndices
  rw [List.length_map, List.length_range]

theorem samplePoints_length (ys : List ℚ) : (samplePoints ys).length = ys.length := by
  unfold samplePoints
  rw [List.length_zip, xIndices_length, min_self]

theorem samplePoints_map_fst (ys : List ℚ) :
    (samplePoints ys).map Prod.fst = xIndices ys.length :=
  List.map_fst_zip _ _ (le_of_eq (xIndices_length ys.length))

theorem xIndices_sum (n : ℕ) : (xIndices n).sum = (n : ℚ) * ((n : ℚ) - 1) / 2 := by
  induction n with
  | zero =>
    rw [show ((0 : ℕ) : ℚ) = 0 from rfl]
    norm_num [xIndices, List.range_zero]
  | succ n ih =>
    simp only [xIndices, List.range_succ, List.map_append, List.sum_append, List.map_cons,
      List.map_nil, List.sum_cons, List.sum_nil, Nat.cast_add, Nat.cast_one] at ih ⊢
    linear_combination ih

theorem xIndices_sumSq (n : ℕ) :
    ((xIndices n).map fun x => x * x).sum
      = (n : ℚ) * ((n : ℚ) - 1) * (2 * (n : ℚ) - 1) / 6 := by
  induction n with
  | zero =>
    rw [show ((0 : ℕ) : ℚ) = 0 from rfl]
    norm_num [xIndices, List.range_zero]
  | succ n ih =>
    simp only [xIndices, List.range_succ, List.map_append, List.sum_append, List.map_cons,
      List.map_nil, List.sum_cons, List.sum_nil, Nat.cast_add, Nat.cast_one] at ih ⊢
    linear_combination ih

theorem sX_samplePoints (ys : List ℚ) :
    sX (samplePoints ys) = (ys.length : ℚ) * ((ys.length : ℚ) - 1) / 2 := by
  unfold sX
  rw [samplePoints_map_fst, xIndices_sum]

theorem sXX_samplePoints (ys : List ℚ) :
    sXX (samplePoints ys)
      = (ys.length : ℚ) * ((ys.length : ℚ) - 1) * (2 * (ys.length : ℚ) - 1) / 6 := by
  unfold sXX
  have hmm : ((samplePoints ys).map fun p => p.1 * p.1)
      = ((samplePoints ys).map Prod.fst).map fun x => x * x := by
    rw [List.map_map]
    rfl
  rw [hmm, samplePoints_map_fst, xIndices_sumSq]

theorem regression_denom_pos (ys : List ℚ) (h : 1 < ys.length) :
    0 < (ys.length : ℚ) * sXX (samplePoints ys)
        - sX (samplePoints ys) * sX (samplePoints ys) := by
  rw [sX_samplePoints, sXX_samplePoints]
  have hn : (2 : ℚ) ≤ (ys.length : ℚ) := by exact_mod_cast h
  nlinarith [hn, sq_nonneg ((ys.length : ℚ) - 2)]

theorem lsq_decomposition (n Sx Sy Sxx Sxy Syy m b ms bs : ℚ) (hn : n ≠ 0)
    (hD : n * Sxx - Sx * Sx ≠ 0)
    (hms : ms = (n * Sxy - Sx * Sy) / (n * Sxx - Sx * Sx))
    (hbs : bs = (Sy - ms * Sx) / n) :
    Syy + m ^ 2 * Sxx + n * b ^ 2 - 2 * m * Sxy - 2 * b * Sy + 2 * m * b * Sx
      = (Syy + ms ^ 2 * Sxx + n * bs ^ 2 - 2 * ms * Sxy - 2 * bs * Sy + 2 * ms * bs * Sx)
        + n * (b - (Sy - m * Sx) / n) ^ 2
        + ((n * Sxx - Sx * Sx) / n) * (m - ms) ^ 2 := by
  subst hbs
  subst hms
  field_simp
  ring

theorem sqErr_optimal (ys : List ℚ) (h : 1 < ys.length) (m b : ℚ) :
    sqErr (samplePoints ys) (polyfitSlope ys) (polyfitIntercept ys)
      ≤ sqErr (samplePoints ys) m b := by
  have hD := regression_denom_pos ys h
  have hn : (0 : ℚ) < (ys.length : ℚ) := by
    exact_mod_cast Nat.lt_of_lt_of_le Nat.zero_lt_one h.le
  have hdec := lsq_decomposition (ys.length : ℚ) (sX (samplePoints ys)) (sY (samplePoints ys))
    (sXX (samplePoints ys)) (sXY (samplePoints ys)) (sYY (samplePoints ys)) m b
    (polyfitSlope ys) (polyfitIntercept ys) hn.ne' hD.ne' rfl rfl
  rw [sqErr_expand, sqErr_expand, samplePoints_length, hdec]
  have h1 : 0 ≤ (ys.length : ℚ)
      * (b - (sY (samplePoints ys) - m * sX (samplePoints ys)) / (ys.length : ℚ)) ^ 2 :=
    mul_nonneg hn.le (sq_nonneg _)
  have h2 : 0 ≤ (((ys.length : ℚ) * sXX (samplePoints ys)
        - sX (samplePoints ys) * sX (samplePoints ys)) / (ys.length : ℚ))
      * (m - polyfitSlope ys) ^ 2 :=
    mul_nonneg (div_nonneg hD.le hn.le) (sq_nonneg _)
  linarith

theorem sqErr_unique (ys : List ℚ) (h : 1 < ys.length) (m b : ℚ)
    (heq : sqErr (samplePoints ys) m b
      = sqErr (samplePoints ys) (polyfitSlope ys) (polyfitIntercept ys)) :
    m = polyfitSlope ys := by
  have hD := regression_denom_pos ys h
  have hn : (0 : ℚ) < (ys.length : ℚ) := by
    exact_mod_cast Nat.lt_of_lt_of_le Nat.zero_lt_one h.le
  have hdec := lsq_decomposition (ys.length : ℚ) (sX (samplePoints ys)) (sY (samplePoints ys))
    (sXX (samplePoints ys)) (sXY (samplePoints ys)) (sYY (samplePoints ys)) m b
    (polyfitSlope ys) (polyfitIntercept ys) hn.ne' hD.ne' rfl rfl
  rw [sqErr_expand, sqErr_expand, samplePoints_length, hdec] at heq
  have h1 : 0 ≤ (ys.length : ℚ)
      * (b - (sY (samplePoints ys) - m * sX (samplePoints ys)) / (ys.length : ℚ)) ^ 2 :=
    mul_nonneg hn.le (sq_nonneg _)
  have hDn : 0 < ((ys.length : ℚ) * sXX (samplePoints ys)
      - sX (samplePoints ys) * sX (samplePoints ys)) / (ys.length : ℚ) :=
    div_pos hD hn
  have h2 : 0 ≤ ((((ys.length : ℚ)) * sXX (samplePoints ys)
        - sX (samplePoints ys) * sX (samplePoints ys)) / (ys.length : ℚ))
      * (m - polyfitSlope ys) ^ 2 :=
    mul_nonneg hDn.le (sq_nonneg _)
  have hz : ((((ys.length : ℚ)) * sXX (samplePoints ys)
        - sX (samplePoints ys) * sX (samplePoints ys)) / (ys.length : ℚ))
      * (m - polyfitSlope ys) ^ 2 = 0 := by linarith
  have hsq : (m - polyfitSlope ys) ^ 2 = 0 := by
    rcases mul_eq_zero.mp hz with hc | hc
    · exact absurd hc hDn.ne'
    · exact hc
  have := pow_eq_zero_iff (n := 2) (by norm_num) |>.mp hsq
  linarith [this]

/-- C6: for an indicator column with more than one non-null value, the slope
the code computes via `np.polyfit(arange(n), values, 1)[0]` is exactly the
least-squares linear-regression slope of the values against the indices
`0 .. n-1` (it minimises the sum of squared residuals, and is the unique such
slope), and the reported direction is `'зростання'` exactly when the slope is
strictly positive and `'спад'` otherwise, including a zero slope. -/
theorem trend_slope_spec (ys : List ℚ) (h : 1 < ys.length) :
    (∀ m b : ℚ, sqErr (samplePoints ys) (polyfitSlope ys) (polyfitIntercept ys)
        ≤ sqErr (samplePoints ys) m b) ∧
    (∀ m b : ℚ, sqErr (samplePoints ys) m b
        = sqErr (samplePoints ys) (polyfitSlope ys) (polyfitIntercept ys) →
      m = polyfitSlope ys) ∧
    (trendDirection (polyfitSlope ys) = "зростання" ↔ 0 < polyfitSlope ys) ∧
    (trendDirection (polyfitSlope ys) = "спад" ↔ polyfitSlope ys ≤ 0) := by
  refine ⟨sqErr_optimal ys h, sqErr_unique ys h, ?_, ?_⟩
  · unfold trendDirection
    by_cases hs : 0 < polyfitSlope ys
    · rw [if_pos hs]
      simp [hs]
    · rw [if_neg hs]
      constructor
      · intro habs
        exact absurd habs (by decide)
      · intro habs
        exact absurd habs hs
  · unfold trendDirection
    by_cases hs : 0 < polyfitSlope ys
    · rw [if_pos hs]
      constructor
      · intro habs
        exact absurd habs (by decide)
      · intro habs
        exact absurd hs (not_lt.mpr habs)
    · rw [if_neg hs]
      simp [not_lt.mp hs]

/-- Witness for C6 on the concrete series `[1, 3]`: the computed slope is 2,
its squared error (zero) is no larger than that of the line `y = 0`, and the
direction is `'зростання'`. -/
theorem trend_slope_spec_witness :
    polyfitSlope [1, 3] = 2 ∧
    sqErr (samplePoints [1, 3]) (polyfitSlope [1, 3]) (polyfitIntercept [1, 3])
      ≤ sqErr (samplePoints [1, 3]) 0 0 ∧
    trendDirection (polyfitSlope [1, 3]) = "зростання" := by
  have hps : samplePoints [1, 3] = [(0, 1), (1, 3)] := by
    norm_num [samplePoints, xIndices, List.range_succ]
  have hslope : polyfitSlope [1, 3] = 2 := by
    unfold polyfitSlope
    rw [hps]
    norm_num [sX, sY, sXX, sXY]
  refine ⟨hslope, (trend_slope_spec [1, 3] (by norm_num)).1 0 0, ?_⟩
  exact ((trend_slope_spec [1, 3] (by norm_num)).2.2.1).mpr (by rw [hslope]; norm_num)

end EconDash
